import Mathlib

/-!
Verification of the keepupwithai ingestion-and-summarization pipeline.

This file gives a shallow embedding of the Python sources `fetcher.py` and
`summarizer.py` and proves the specified properties about them.  External
library calls (HTTP requests via `requests`, feed parsing via `feedparser`,
HTML extraction via BeautifulSoup, `json.loads`, `hashlib.sha256`) are
modelled as oracle parameters; everything the repository's own code does
(control flow, retry/backoff arithmetic, deduplication, validation, status
transitions) is embedded faithfully.

Python `str` operations are embedded as functions on `List Char` so that
all definitions evaluate by kernel reduction.
-/

namespace KeepUp

/-! ### Python string primitives -/

/-- `str.lower` on a single character (ASCII, which is all the code relies on). -/
def chLower (c : Char) : Char :=
  if 'A' ≤ c ∧ c ≤ 'Z' then Char.ofNat (c.toNat + 32) else c

/-- `str.lower`. -/
def pyLower (s : String) : String := ⟨s.data.map chLower⟩

/-- `str.strip` on a character list: drop whitespace from both ends. -/
def pyStripL (l : List Char) : List Char :=
  ((l.dropWhile Char.isWhitespace).reverse.dropWhile Char.isWhitespace).reverse

/-- `str.strip`. -/
def pyStrip (s : String) : String := ⟨pyStripL s.data⟩

/-- Python slicing `s[:n]`. -/
def pyTake (s : String) (n : Nat) : String := ⟨s.data.take n⟩

/-- `str.rstrip("/")`. -/
def rstripSlash (s : String) : String :=
  ⟨(s.data.reverse.dropWhile (fun c => c == '/')).reverse⟩

/-- `str.startswith` on character lists. -/
def isPre : List Char → List Char → Bool
  | [], _ => true
  | _ :: _, [] => false
  | a :: as, b :: bs => a == b && isPre as bs

/-- `str.split("\n")` on a character list. -/
def splitLines : List Char → List (List Char)
  | [] => [[]]
  | c :: cs =>
    match splitLines cs with
    | [] => [[]]
    | l :: ls => if c == '\n' then [] :: l :: ls else (c :: l) :: ls

/-- `"\n".join` on character lists. -/
def joinLines : List (List Char) → List Char
  | [] => []
  | [l] => l
  | l :: ls => l ++ '\n' :: joinLines ls

/-- Lexicographic `<` on strings, as Python and SQLite compare text. -/
def strLtL : List Char → List Char → Bool
  | _, [] => false
  | [], _ :: _ => true
  | a :: as, b :: bs => if a < b then true else if b < a then false else strLtL as bs

/-- Lexicographic string comparison used for `published_at` text columns. -/
def strLt (a b : String) : Bool := strLtL a.data b.data

/-- Python truthiness of an optional string column/field:
`None` and `""` are falsy, any other string is truthy. -/
def truthy : Option String → Option String
  | some s => if s = "" then none else some s
  | none => none

/-! ### Resilient fetch client (`fetcher.py`, `fetch_with_backoff`)

One HTTP GET attempt can end in a response with a status code, a
`requests.ConnectionError` (classified by `_is_non_retryable_error`, which
walks the exception cause chain for DNS-failure / connection-refused
markers), or some other `requests.RequestException` (timeouts etc.).
An oracle `Nat → Attempt` gives the outcome of each attempt. -/

inductive Attempt
  | response (code : Nat)
  | connError (nonRetryable : Bool)
  | otherExc
deriving DecidableEq

/-- Config constants of `fetcher.py`. -/
def MAX_RETRIES : Nat := 3

/-- Backoff base in seconds (`BACKOFF_BASE = 2`). -/
def BACKOFF_BASE : Nat := 2

/-- `MAX_CHARS_PER_ITEM` (environment default `8000`). -/
def MAX_CHARS_PER_ITEM : Nat := 8000

/-- Observable outcome of one `fetch_with_backoff` call: final result
(`some code` when a response object is returned, `none` for total failure),
the number of GET requests issued, the backoff waits slept (in seconds, in
order), and whether the call added the domain to `_failed_domains`. -/
structure FetchRun where
  result : Option Nat
  requests : Nat
  sleeps : List Nat
  blacklisted : Bool
deriving DecidableEq

/-- `_get_domain`: `urlparse(url).netloc.lower()` — the text between the
first `"//"` and the next `/`, `?` or `#`, lowercased. -/
def _get_domain (url : String) : String :=
  pyLower ⟨(afterDoubleSlash url.data).takeWhile
      (fun c => !(c == '/' || c == '?' || c == '#'))⟩
where
  afterDoubleSlash : List Char → List Char
    | [] => []
    | '/' :: '/' :: rest => rest
    | _ :: rest => afterDoubleSlash rest

/-- The retry loop `for attempt in range(MAX_RETRIES)` of
`fetch_with_backoff`, with `remaining` attempts left (so
`attempt + remaining = MAX_RETRIES` at every call).  Mirrors, in order:
the 304 early return, the definitive-4xx early return, the
`raise_for_status` raise for 429/5xx caught as a retryable
`RequestException`, the non-retryable `ConnectionError` classification, the
retryable-exception backoff (sleeping `BACKOFF_BASE ** attempt` only when
`attempt < MAX_RETRIES - 1`), and the post-loop blacklisting. -/
def fetchAttempts (oracle : Nat → Attempt) : Nat → Nat → FetchRun
  | _, 0 => ⟨none, 0, [], true⟩
  | attempt, r + 1 =>
    let retry : FetchRun :=
      let rest := fetchAttempts oracle (attempt + 1) r
      ⟨rest.result, rest.requests + 1,
        (if 0 < r then [BACKOFF_BASE ^ attempt] else []) ++ rest.sleeps,
        rest.blacklisted⟩
    match oracle attempt with
    | .response code =>
      if code = 304 then ⟨some 304, 1, [], false⟩
      else if 400 ≤ code ∧ code < 500 ∧ code ≠ 429 then ⟨none, 1, [], false⟩
      else if code = 429 ∨ (500 ≤ code ∧ code < 600) then retry
      else ⟨some code, 1, [], false⟩
    | .connError nonRetryable =>
      if nonRetryable then ⟨none, 1, [], true⟩ else retry
    | .otherExc => retry

/-- `fetch_with_backoff(url)`: fail fast if the domain is already in
`_failed_domains`, otherwise run the attempt loop and record the domain in
the failed set when the loop blacklists it. -/
def fetch_with_backoff (oracle : Nat → Attempt) (failedDomains : List String)
    (url : String) : FetchRun × List String :=
  let domain := _get_domain url
  if domain ∈ failedDomains then (⟨none, 0, [], false⟩, failedDomains)
  else
    let run := fetchAttempts oracle 0 MAX_RETRIES
    (run, if run.blacklisted then failedDomains.insert domain else failedDomains)

/-- The retryable attempt outcomes: timeouts and other transient
request exceptions, transient connection errors, and 429/5xx statuses. -/
def retryable : Attempt → Bool
  | .response code => code == 429 || (decide (500 ≤ code) && decide (code < 600))
  | .connError nonRetryable => !nonRetryable
  | .otherExc => true

/-! ### Data model (`items` table of `SCHEMA_SQL`) -/

/-- Item lifecycle statuses used by the pipeline. -/
inductive Status
  | new
  | summarized
  | skipped
deriving DecidableEq

/-- JSON values, for the structured summary payloads handled by
`summarizer.py` (`json.loads` is modelled as an oracle producing these). -/
inductive Json
  | null
  | bool (b : Bool)
  | num (n : Int)
  | str (s : String)
  | arr (elems : List Json)
  | obj (fields : List (String × Json))

/-- A row of the `items` table. -/
structure Item where
  id : Nat
  sourceId : Nat
  title : String
  url : String
  guid : Option String
  publishedAt : Option String
  fetchedAt : String
  contentText : Option String
  urlHash : String
  status : Status
  summaryJson : Option Json
  modelUsed : Option String

/-- A parsed feed entry as `feedparser` hands it to `fetch_feed`:
`link`, `id` (guid), `title`, `content[0].value` (when the `content`
attribute exists with a non-empty list), `summary`, and the already-parsed
publication date (`parse_entry_date` result). -/
structure Entry where
  link : Option String
  guid : Option String
  title : Option String
  contentHtml : Option String
  summary : Option String
  published : Option String

/-! ### Content extraction and ingestion (`fetcher.py`) -/

/-- The summary/description branch of `get_entry_content`. -/
def entrySummaryContent (extract : String → String) (e : Entry) : String :=
  match truthy e.summary with
  | some s => extract s
  | none => ""

/-- `get_entry_content`: prefer `entry.content[0].value` when truthy, else
the `summary` field when truthy, else the empty string.  `extract` is
`extract_text_from_html` (BeautifulSoup based, modelled as an oracle). -/
def get_entry_content (extract : String → String) (e : Entry) : String :=
  match e.contentHtml with
  | some html => if html = "" then entrySummaryContent extract e else extract html
  | none => entrySummaryContent extract e

/-- `entry_url = getattr(entry, "link", None) or getattr(entry, "id", None)`. -/
def entryUrl (e : Entry) : Option String :=
  match truthy e.link with
  | some u => some u
  | none => truthy e.guid

/-- The dedup guard `SELECT 1 FROM items WHERE url_hash=?`. -/
def itemExists (store : List Item) (h : String) : Bool :=
  store.any (fun it => it.urlHash == h)

/-- Observable state threaded through the `for entry in parsed.entries`
loop of `fetch_feed`: the item store, the `new_count`, and the URLs for
which `fetch_article_text` was invoked (the article-page fallback). -/
structure IngestState where
  store : List Item
  newCount : Nat
  articleFetches : List String

/-- One iteration of the entry loop of `fetch_feed` (lines 366-400):
skip entries without a URL, skip entries whose URL hash is already stored,
otherwise extract content (falling back to fetching the article page when
the entry content is falsy or shorter than 100 characters after stripping),
cap it at `MAX_CHARS_PER_ITEM`, and insert a `new` item.
`urlHashFn` models `url_hash` (SHA-256 hex digest of the URL),
`fetchArticle` models `fetch_article_text`. -/
def processEntry (urlHashFn extract fetchArticle : String → String)
    (sourceId : Nat) (now : String) (st : IngestState) (e : Entry) : IngestState :=
  match entryUrl e with
  | none => st
  | some entry_url =>
    let entry_hash := urlHashFn entry_url
    if itemExists st.store entry_hash then st
    else
      let title := e.title.getD "Untitled"
      let content0 := get_entry_content extract e
      let fellBack : Bool := (content0 == "") || decide ((pyStrip content0).length < 100)
      let content1 := if fellBack then fetchArticle entry_url else content0
      let content := pyTake content1 MAX_CHARS_PER_ITEM
      { store := st.store ++ [{
          id := st.store.length,
          sourceId := sourceId,
          title := title,
          url := entry_url,
          guid := e.guid,
          publishedAt := e.published,
          fetchedAt := now,
          contentText := some content,
          urlHash := entry_hash,
          status := .new,
          summaryJson := none,
          modelUsed := none }],
        newCount := st.newCount + 1,
        articleFetches := st.articleFetches ++ (if fellBack then [entry_url] else []) }

/-- The entry loop of `fetch_feed` over all entries of a parsed feed,
starting from a given store with `new_count = 0`. -/
def ingestRun (urlHashFn extract fetchArticle : String → String)
    (sourceId : Nat) (now : String) (store : List Item) (entries : List Entry) :
    IngestState :=
  entries.foldl (processEntry urlHashFn extract fetchArticle sourceId now)
    ⟨store, 0, []⟩

/-! ### Feed discovery (`discover_feed_url`) -/

/-- A source descriptor from `feeds.yaml` (`type` is `srcType` here since
`type` is reserved in Lean). -/
structure SourceCfg where
  name : String
  url : String
  srcType : Option String
  feed_url : Option String
  html_fallback_url : Option String

/-- `discover_feed_url`: explicit `feed_url` wins; then a declared
`html_fallback_url` means no probing; then the kind-specific patterns
(substack path suffix, medium regex — modelled by the pure function
`mediumFeed` — and the youtube out-of-band case); else generic probing
(`_discover_site_feed`, modelled by the oracle `probe`, which reports the
feed it found together with the number of network requests it issued). -/
def discover_feed_url (probe : String → Option String × Nat)
    (mediumFeed : String → Option String) (source : SourceCfg) :
    Option String × Nat :=
  let src_type := source.srcType.getD "site"
  let url := rstripSlash source.url
  if (truthy source.feed_url).isSome then (source.feed_url, 0)
  else if (truthy source.html_fallback_url).isSome then (none, 0)
  else if src_type = "substack" then (some (url ++ "/feed"), 0)
  else if src_type = "medium" then (mediumFeed url, 0)
  else if src_type = "youtube" then (none, 0)
  else probe url

/-! ### Summary validation (`summarizer.py`) -/

/-- The six required payload fields (`REQUIRED_FIELDS`). -/
def REQUIRED_FIELDS : List String :=
  ["eli5", "eli16", "why_this_matters", "what_changed",
   "key_quotes", "confidence_unknowns"]

/-- `isinstance(data, dict)`. -/
def Json.isDict : Json → Bool
  | .obj _ => true
  | _ => false

/-- `data.keys()` of a JSON dict. -/
def Json.keys : Json → List String
  | .obj fields => fields.map Prod.fst
  | _ => []

/-- `REQUIRED_FIELDS.issubset(data.keys())`. -/
def requiredSubset (d : Json) : Bool :=
  REQUIRED_FIELDS.all (fun k => d.keys.contains k)

/-- `_try_parse`: parse (via the `json.loads` oracle `loads`; `none`
models a `JSONDecodeError`), require a dict, require the six fields. -/
def _try_parse (loads : String → Option Json) (text : String) : Option Json :=
  match loads text with
  | none => none
  | some data =>
    if !data.isDict then none
    else if !requiredSubset data then none
    else some data

/-- The fixed truncation-repair suffixes tried by `parse_summary_json`. -/
def REPAIR_SUFFIXES : List String :=
  ["\"\x7d\n\x7d", "\"\n\x7d", "\"]\n\x7d", "]\n\x7d", "\n\x7d", "\x7d"]

/-- The fence-stripping preamble of `parse_summary_json`: strip the text;
if it starts with a code fence, drop every line whose stripped form starts
with a fence and re-strip. -/
def strip_fences (text : String) : String :=
  let t := pyStrip text
  if isPre "```".data t.data then
    let kept := (splitLines t.data).filter (fun l => !isPre "```".data (pyStripL l))
    pyStrip ⟨joinLines kept⟩
  else t

/-- The repair loop of `parse_summary_json`: append each suffix in order
and return the first successful parse. -/
def repairLoop (loads : String → Option Json) (t : String) :
    List String → Option Json
  | [] => none
  | sfx :: rest =>
    match _try_parse loads (t ++ sfx) with
    | some d => some d
    | none => repairLoop loads t rest

/-- `parse_summary_json`: strip fences, try a direct parse, then the
truncation-repair suffixes. -/
def parse_summary_json (loads : String → Option Json) (text : String) :
    Option Json :=
  let t := strip_fences text
  match _try_parse loads t with
  | some d => some d
  | none => repairLoop loads t REPAIR_SUFFIXES

/-! ### Summarization orchestrator (`summarizer.py`, `summarize_item` and
`main`) -/

/-- `MAX_INPUT_TOKENS`. -/
def MAX_INPUT_TOKENS : Nat := 2000

/-- `truncate_for_input`: cap at 4 characters per input token. -/
def truncate_for_input (text : String) : String :=
  let maxChars := MAX_INPUT_TOKENS * 4
  if maxChars < text.length then pyTake text maxChars ++ "\n[truncated]" else text

/-- `SUMMARY_SYSTEM_PROMPT` of `summarizer.py`. -/
def SUMMARY_SYSTEM_PROMPT : String :=
  "You are an AI content summarizer. Given an article title and text, produce a JSON object with exactly these fields:\n\n\x7b\n  \"eli5\": \"Explain like I\x27m 5 — simple, accessible summary\",\n  \"eli16\": \"Explain like I\x27m 16 — more technical, includes key details\",\n  \"why_this_matters\": \"Why this is important or relevant\",\n  \"what_changed\": \"What\x27s new or different from before\",\n  \"key_quotes\": [\"Array of genuinely useful quotes from the text, or empty array if none\"],\n  \"confidence_unknowns\": \"What you\x27re not sure about or what\x27s missing from the source\"\n\x7d\n\nRules:\n- Output ONLY valid JSON, no markdown fences, no extra text\n- All fields are required\n- Keep each field to 1-2 sentences max\n- key_quotes: max 2 quotes, or empty array [] if none are genuinely useful\n- confidence_unknowns: 1 sentence max\n- If the content is too short or unclear, do your best and note limitations in confidence_unknowns"

/-- The fixed part of `FIX_JSON_PROMPT`, before the `\x7btext\x7d` slot. -/
def FIX_JSON_INSTR : String :=
  "The following text was supposed to be valid JSON but isn\x27t. Fix it and return ONLY the corrected JSON object. Do not add markdown fences or explanation.\n\nInvalid JSON:\n"

/-- `FIX_JSON_PROMPT.format(text=...)`: the instruction with the raw
invalid text substituted at the end. -/
def FIX_JSON_PROMPT (text : String) : String := FIX_JSON_INSTR ++ text

/-- The user prompt built by `summarize_item`. -/
def userPromptOf (title content : String) : String :=
  "Title: " ++ title ++ "\n\nContent:\n" ++ truncate_for_input content

/-- Observable outcome of `summarize_item` for one item: the returned
`(summary, model_used)` pair (`none` when the function raises, either
because `call_llm` exhausted its retries or because the corrected response
was still invalid), and the `(system, user)` prompt pairs of the LLM calls
it issued, in order. -/
structure SumOutcome where
  result : Option (Json × String)
  calls : List (String × String)

/-- `summarize_item`: build the prompt from the truncated content, call the
LLM (the oracle `world` gives the text returned by the `idx`-th LLM call of
the run; `none` models `call_llm` raising after exhausting its retries),
validate with `parse_summary_json`, and on failure issue exactly one
corrective call with `FIX_JSON_PROMPT` before giving up. -/
def summarize_item (loads : String → Option Json) (world : Nat → Option String)
    (idx : Nat) (model : String) (title content : String) : SumOutcome :=
  let userPrompt := userPromptOf title content
  match world idx with
  | none => ⟨none, [(SUMMARY_SYSTEM_PROMPT, userPrompt)]⟩
  | some response =>
    match parse_summary_json loads response with
    | some summary => ⟨some (summary, model), [(SUMMARY_SYSTEM_PROMPT, userPrompt)]⟩
    | none =>
      let fixPrompt := FIX_JSON_PROMPT response
      let calls := [(SUMMARY_SYSTEM_PROMPT, userPrompt), ("Fix this JSON.", fixPrompt)]
      match world (idx + 1) with
      | none => ⟨none, calls⟩
      | some fixed =>
        match parse_summary_json loads fixed with
        | some summary => ⟨some (summary, model), calls⟩
        | none => ⟨none, calls⟩

/-- State threaded through the item loop of `summarizer.py`'s `main`: the
store, the success and error counters, and the chronological log of LLM
calls issued so far (its length indexes into the `world` oracle). -/
structure RunState where
  store : List Item
  success : Nat
  errors : Nat
  calls : List (String × String)

/-- `UPDATE items SET ... WHERE id=?`. -/
def updateItem (store : List Item) (iid : Nat) (f : Item → Item) : List Item :=
  store.map (fun it => if it.id = iid then f it else it)

/-- One iteration of the item loop of `main` (lines 261-291): transition
straight to `skipped` without an LLM call when the stored content is falsy
or whitespace-only; otherwise run `summarize_item` and either persist the
summary with status `summarized` or count the failure, writing nothing. -/
def processRow (loads : String → Option Json) (world : Nat → Option String)
    (model : String) (rs : RunState) (row : Item) : RunState :=
  let content := row.contentText.getD ""
  if pyStrip content = "" then
    { rs with
      store := updateItem rs.store row.id (fun it => { it with status := .skipped }) }
  else
    let step := summarize_item loads world rs.calls.length model row.title content
    match step.result with
    | some (summary, modelUsed) =>
      { store := updateItem rs.store row.id (fun it =>
          { it with summaryJson := some summary, modelUsed := some modelUsed,
                    status := .summarized }),
        success := rs.success + 1,
        errors := rs.errors,
        calls := rs.calls ++ step.calls }
    | none =>
      { rs with errors := rs.errors + 1, calls := rs.calls ++ step.calls }

/-- The migration cutoff date constant `'2025-10-01'`. -/
def CUTOFF_DATE : String := "2025-10-01"

/-- `published_at < '2025-10-01'` (SQL text comparison; NULL compares
false). -/
def isOld (it : Item) : Bool :=
  match it.publishedAt with
  | some p => strLt p CUTOFF_DATE
  | none => false

/-- The one-time sweep `UPDATE items SET status='skipped' WHERE
status='new' AND published_at < '2025-10-01'`. -/
def markOldSkipped (store : List Item) : List Item :=
  store.map (fun it =>
    if it.status == .new && isOld it then { it with status := .skipped } else it)

/-- The `WHERE` clause of the selection query: status `new` and published
on/after the cutoff or with unknown date. -/
def eligible (it : Item) : Bool :=
  it.status == .new &&
    (match it.publishedAt with
     | some p => !strLt p CUTOFF_DATE
     | none => true)

/-- `ORDER BY published_at DESC` comparison (SQLite sorts NULLs last in
descending order). -/
def pubAfter (a b : Item) : Bool :=
  match a.publishedAt, b.publishedAt with
  | some p, some q => !strLt p q
  | some _, none => true
  | none, some _ => false
  | none, none => true

/-- Insertion step of the descending sort. -/
def insertSorted (x : Item) : List Item → List Item
  | [] => [x]
  | y :: ys => if pubAfter x y then x :: y :: ys else y :: insertSorted x ys

/-- Sort by published date descending. -/
def sortByPubDesc : List Item → List Item
  | [] => []
  | x :: xs => insertSorted x (sortByPubDesc xs)

/-- The selection query of `main`: eligible items, newest first, capped at
`MAX_NEW_ITEMS_PER_RUN` (`cap`). -/
def selectEligible (cap : Nat) (store : List Item) : List Item :=
  (sortByPubDesc (store.filter eligible)).take cap

/-- A whole summarizer run (`main`): the migration sweep, the selection,
then the item loop. -/
def summarizerRun (loads : String → Option Json) (world : Nat → Option String)
    (cap : Nat) (model : String) (store : List Item) : RunState :=
  let store1 := markOldSkipped store
  let rows := selectEligible cap store1
  rows.foldl (processRow loads world model) ⟨store1, 0, 0, []⟩

/-- Validity of a stored summary payload: a JSON dict containing all six
required fields, exactly the check `_try_parse` enforces. -/
def summaryValid : Option Json → Bool
  | some d => d.isDict && requiredSubset d
  | none => false

/-- The six-field schema invariant: every `summarized` item carries a valid
payload. -/
def SummaryInv (store : List Item) : Prop :=
  ∀ it ∈ store, it.status = Status.summarized → summaryValid it.summaryJson = true

/-- The dedup invariant: no two items share a `url_hash`. -/
def HashesNodup (store : List Item) : Prop := (store.map Item.urlHash).Nodup

/-! ### Concrete fixtures, used to instantiate the theorems below on
closed inputs -/

/-- A syntactically valid six-field summary payload. -/
def objOKW : Json :=
  .obj [("eli5", .str "a"), ("eli16", .str "b"), ("why_this_matters", .str "c"),
        ("what_changed", .str "d"), ("key_quotes", .arr []),
        ("confidence_unknowns", .str "e")]

/-- A `json.loads` oracle accepting exactly the text `"GOOD"`. -/
def loadsGoodW : String → Option Json := fun s => if s = "GOOD" then some objOKW else none

/-- A `json.loads` oracle that always fails. -/
def loadsNoneW : String → Option Json := fun _ => none

/-- An LLM oracle that always answers `"GOOD"`. -/
def worldGoodW : Nat → Option String := fun _ => some "GOOD"

/-- An LLM oracle that always answers the unparseable text `"oops"`. -/
def worldOopsW : Nat → Option String := fun _ => some "oops"

/-- A fresh item with non-empty content. -/
def itemNewW : Item :=
  { id := 0, sourceId := 1, title := "T", url := "http://a/1", guid := none,
    publishedAt := some "2025-10-05T00:00:00+00:00", fetchedAt := "f",
    contentText := some "hello world", urlHash := "h1", status := .new,
    summaryJson := none, modelUsed := none }

/-- A fresh item whose content is whitespace only. -/
def itemWsW : Item :=
  { itemNewW with
    id := 1, url := "http://a/2", urlHash := "h2", contentText := some "   " }

/-- Run state holding the two fixture items with no calls made yet. -/
def rsW : RunState := ⟨[itemNewW, itemWsW], 0, 0, []⟩

/-- A feed entry with a link and thin (short) entry content. -/
def entryAW : Entry :=
  { link := some "http://a/1", guid := none, title := some "E1",
    contentHtml := some "short", summary := none, published := none }

/-- Identity stand-ins for the hash / extraction / article-fetch oracles. -/
def idFnW : String → String := fun s => s

/-- Article-page fetch oracle returning fixed text. -/
def artW : String → String := fun _ => "ARTICLE"

/-- A probing oracle that reports one network request. -/
def probeW : String → Option String × Nat := fun _ => (some "probed", 1)

/-- A medium-pattern oracle. -/
def medW : String → Option String := fun _ => none

/-- A source with both an explicit feed URL and an HTML fallback. -/
def srcAW : SourceCfg :=
  { name := "A", url := "https://a.example/", srcType := some "site",
    feed_url := some "https://a.example/rss", html_fallback_url := some "https://a.example/news" }

/-- A source with only an HTML fallback. -/
def srcBW : SourceCfg :=
  { name := "B", url := "https://b.example", srcType := some "site",
    feed_url := none, html_fallback_url := some "https://b.example/news" }

/-! ## Theorems -/

/-- A retryable attempt outcome makes the loop fall through to the backoff
branch: one more request, a sleep of `BACKOFF_BASE ^ attempt` seconds when
further attempts remain, and the rest of the loop. -/
theorem fetchAttempts_retry (oracle : Nat → Attempt) (attempt r : Nat)
    (h : retryable (oracle attempt) = true) :
    fetchAttempts oracle attempt (r + 1) =
      ⟨(fetchAttempts oracle (attempt + 1) r).result,
       (fetchAttempts oracle (attempt + 1) r).requests + 1,
       (if 0 < r then [BACKOFF_BASE ^ attempt] else []) ++
         (fetchAttempts oracle (attempt + 1) r).sleeps,
       (fetchAttempts oracle (attempt + 1) r).blacklisted⟩ := by
  rcases ho : oracle attempt with code | nr | _
  · rw [ho] at h
    simp only [retryable, Bool.or_eq_true, beq_iff_eq, Bool.and_eq_true,
      decide_eq_true_eq] at h
    simp only [fetchAttempts, ho]
    rw [if_neg (by omega), if_neg (by omega),
      if_pos (by rcases h with h | ⟨h1, h2⟩ <;> [left; right] <;> omega)]
  · rw [ho] at h
    simp only [retryable, Bool.not_eq_true'] at h
    subst h
    simp [fetchAttempts, ho]
  · simp [fetchAttempts, ho]

/-- C3: when every attempt fails retryably (timeout, 5xx/429 status, or a
transient connection error), `fetch_with_backoff` issues exactly
`MAX_RETRIES = 3` requests with exactly two backoff waits of 1 then 2
seconds between them, issues no request after the third attempt, and
returns total failure (blacklisting the domain for the rest of the run). -/
theorem backoff_schedule (oracle : Nat → Attempt) (failedDomains : List String)
    (url : String) (hd : _get_domain url ∉ failedDomains)
    (h : ∀ i, i < MAX_RETRIES → retryable (oracle i) = true) :
    fetch_with_backoff oracle failedDomains url =
      (⟨none, 3, [1, 2], true⟩, failedDomains.insert (_get_domain url)) := by
  have h0 := h 0 (by norm_num [MAX_RETRIES])
  have h1 := h 1 (by norm_num [MAX_RETRIES])
  have h2 := h 2 (by norm_num [MAX_RETRIES])
  have e2 : fetchAttempts oracle 2 1 = ⟨none, 1, [], true⟩ := by
    rw [fetchAttempts_retry oracle 2 0 h2]; rfl
  have e1 : fetchAttempts oracle 1 2 = ⟨none, 2, [2], true⟩ := by
    rw [fetchAttempts_retry oracle 1 1 h1, e2]; rfl
  have e0 : fetchAttempts oracle 0 MAX_RETRIES = ⟨none, 3, [1, 2], true⟩ := by
    show fetchAttempts oracle 0 (2 + 1) = _
    rw [fetchAttempts_retry oracle 0 2 h0, e1]; rfl
  simp only [fetch_with_backoff, if_neg hd, e0]
  simp

/-- Witness for C3: three simulated timeouts on a fresh domain. -/
theorem backoff_schedule_witness :
    fetch_with_backoff (fun _ => Attempt.otherExc) [] "https://example.com/feed" =
      (⟨none, 3, [1, 2], true⟩, ["example.com"]) := by
  rw [backoff_schedule (fun _ => Attempt.otherExc) [] "https://example.com/feed"
    (by decide) (fun i _ => rfl)]
  decide

/-- C6 (amended): a definitive 4xx response (any 4xx other than 429) makes
`fetch_with_backoff` return failure immediately — a single request, no
backoff wait — but the origin is NOT added to the failed set, so subsequent
fetches to that origin are not short-circuited. -/
theorem definitive_4xx_no_blacklist (oracle : Nat → Attempt)
    (failedDomains : List String) (url : String) (code : Nat)
    (hd : _get_domain url ∉ failedDomains)
    (h0 : oracle 0 = .response code)
    (h4 : 400 ≤ code) (h5 : code < 500) (h9 : code ≠ 429) :
    fetch_with_backoff oracle failedDomains url =
      (⟨none, 1, [], false⟩, failedDomains) := by
  have e : fetchAttempts oracle 0 MAX_RETRIES = ⟨none, 1, [], false⟩ := by
    show fetchAttempts oracle 0 (2 + 1) = _
    simp only [fetchAttempts, h0]
    rw [if_neg (by omega), if_pos ⟨h4, h5, h9⟩]
  simp only [fetch_with_backoff, if_neg hd, e]
  simp

/-- Witness for C6 (amended): a 404 on a fresh domain. -/
theorem definitive_4xx_no_blacklist_witness :
    fetch_with_backoff (fun _ => Attempt.response 404) [] "http://example.com/a" =
      (⟨none, 1, [], false⟩, []) :=
  definitive_4xx_no_blacklist (fun _ => Attempt.response 404) [] "http://example.com/a"
    404 (by decide) rfl (by norm_num) (by norm_num) (by norm_num)

/-- Counterexample to C6 as stated: after a definitive 404 on
`http://example.com/a`, the failed set is still empty (the origin was not
added), and a subsequent fetch of `http://example.com/b` — same origin —
still issues a network request instead of short-circuiting. -/
theorem definitive_4xx_cex :
    (fetch_with_backoff (fun _ => Attempt.response 404) [] "http://example.com/a").2 = []
    ∧ (fetch_with_backoff (fun _ => Attempt.response 404)
        (fetch_with_backoff (fun _ => Attempt.response 404) [] "http://example.com/a").2
        "http://example.com/b").1.requests = 1 := by decide

/-- C9 (amended): the unit of circuit-breaking is the lowercased network
location (`urlparse(url).netloc.lower()`: host, plus port when present) —
the scheme is not part of the key.  Blacklisting a URL's netloc makes every
subsequent fetch of any URL with the same netloc — including one with a
different scheme — short-circuit without a network call. -/
theorem circuit_break_by_netloc (oracle oracle2 : Nat → Attempt)
    (failedDomains : List String) (u u2 : String)
    (hd : _get_domain u ∉ failedDomains)
    (h0 : oracle 0 = .connError true)
    (hsame : _get_domain u2 = _get_domain u) :
    fetch_with_backoff oracle failedDomains u =
      (⟨none, 1, [], true⟩, failedDomains.insert (_get_domain u))
    ∧ (fetch_with_backoff oracle2 (failedDomains.insert (_get_domain u)) u2).1 =
      ⟨none, 0, [], false⟩ := by
  constructor
  · have e : fetchAttempts oracle 0 MAX_RETRIES = ⟨none, 1, [], true⟩ := by
      show fetchAttempts oracle 0 (2 + 1) = _
      simp [fetchAttempts, h0]
    simp only [fetch_with_backoff, if_neg hd, e]
    simp
  · simp only [fetch_with_backoff]
    rw [if_pos (hsame ▸ List.mem_insert_self (_get_domain u) failedDomains)]

/-- Witness for C9 (amended): a DNS failure on an https URL short-circuits
a later http URL on the same host. -/
theorem circuit_break_by_netloc_witness :
    fetch_with_backoff (fun _ => Attempt.connError true) [] "https://example.com/a" =
      (⟨none, 1, [], true⟩, ([] : List String).insert (_get_domain "https://example.com/a"))
    ∧ (fetch_with_backoff (fun _ => Attempt.otherExc)
        (([] : List String).insert (_get_domain "https://example.com/a"))
        "http://example.com/b").1 = ⟨none, 0, [], false⟩ :=
  circuit_break_by_netloc (fun _ => Attempt.connError true) (fun _ => Attempt.otherExc)
    [] "https://example.com/a" "http://example.com/b" (by decide) rfl (by decide)

/-- Counterexample to C9 as stated: `https://example.com/a` and
`http://example.com/b` differ in scheme but map to the same
circuit-breaker key, and after the https URL's host is blacklisted the
http URL is short-circuited too (zero requests) — the two are not
blacklisted and short-circuited independently, and the key is not
scheme + host. -/
theorem origin_scheme_cex :
    _get_domain "https://example.com/a" = _get_domain "http://example.com/b"
    ∧ (fetch_with_backoff (fun _ => Attempt.otherExc)
        (fetch_with_backoff (fun _ => Attempt.connError true) [] "https://example.com/a").2
        "http://example.com/b").1.requests = 0 := by decide

/-- The dedup guard succeeds exactly when some stored item carries the
hash. -/
theorem itemExists_iff (store : List Item) (h : String) :
    itemExists store h = true ↔ ∃ it ∈ store, it.urlHash = h := by
  simp [itemExists, List.any_eq_true]

/-- One entry-loop iteration preserves the hash-uniqueness invariant:
insertion happens only behind the `itemExists` dedup check. -/
theorem processEntry_nodup (uh ex fa : String → String) (sid : Nat) (now : String)
    (st : IngestState) (e : Entry) (h : HashesNodup st.store) :
    HashesNodup (processEntry uh ex fa sid now st e).store := by
  unfold processEntry
  cases he : entryUrl e with
  | none => exact h
  | some u =>
    by_cases hex : itemExists st.store (uh u) = true
    · simpa [hex] using h
    · rw [Bool.not_eq_true] at hex
      simp only [hex, Bool.false_eq_true, if_false]
      show HashesNodup (st.store ++ [_])
      unfold HashesNodup at h ⊢
      rw [List.map_append, List.nodup_append]
      refine ⟨h, List.nodup_singleton _, ?_⟩
      intro x hx hx1
      simp only [List.map_cons, List.map_nil, List.mem_singleton] at hx1
      rcases List.mem_map.mp hx with ⟨it, hit, rfl⟩
      have : itemExists st.store (uh u) = true :=
        (itemExists_iff _ _).mpr ⟨it, hit, by simpa using hx1⟩
      rw [this] at hex
      exact Bool.true_eq_false.mp hex

/-- The entry loop preserves hash uniqueness. -/
theorem foldl_nodup (uh ex fa : String → String) (sid : Nat) (now : String)
    (entries : List Entry) (st : IngestState) (h : HashesNodup st.store) :
    HashesNodup ((entries.foldl (processEntry uh ex fa sid now) st).store) := by
  induction entries generalizing st with
  | nil => exact h
  | cons e es ih =>
    exact ih _ (processEntry_nodup uh ex fa sid now st e h)

/-- C1: across any sequence of ingestion runs (each with its own source id,
fetch timestamp and entry list), at most one item per content hash exists
in the store — `INSERT` only happens behind the `itemExists` check on
`url_hash`, so a second insertion of an already-present hash never
succeeds, regardless of which source the entry came from. -/
theorem dedup_invariant (uh ex fa : String → String)
    (runs : List (Nat × String × List Entry)) (store0 : List Item)
    (h : HashesNodup store0) :
    HashesNodup (runs.foldl
      (fun s r => (ingestRun uh ex fa r.1 r.2.1 s r.2.2).store) store0) := by
  induction runs generalizing store0 with
  | nil => exact h
  | cons r rs ih =>
    exact ih _ (foldl_nodup uh ex fa r.1 r.2.1 r.2.2 ⟨store0, 0, []⟩ h)

/-- Witness for C1: two runs over feeds that repeat the same entry. -/
theorem dedup_invariant_witness :
    HashesNodup ([((1 : Nat), ("t1", [entryAW, entryAW])), (2, ("t2", [entryAW]))].foldl
      (fun s r => (ingestRun idFnW idFnW artW r.1 r.2.1 s r.2.2).store) []) :=
  dedup_invariant idFnW idFnW artW _ [] List.nodup_nil

/-- `processEntry` never removes items, so a present hash stays present. -/
theorem itemExists_mono (uh ex fa : String → String) (sid : Nat) (now : String)
    (st : IngestState) (e : Entry) (h' : String)
    (h : itemExists st.store h' = true) :
    itemExists (processEntry uh ex fa sid now st e).store h' = true := by
  unfold processEntry
  cases he : entryUrl e with
  | none => exact h
  | some u =>
    by_cases hex : itemExists st.store (uh u) = true
    · simp only [hex, if_true]
      exact h
    · rw [Bool.not_eq_true] at hex
      simp only [hex, Bool.false_eq_true, if_false]
      show itemExists (st.store ++ [_]) h' = true
      simp only [itemExists, List.any_append, Bool.or_eq_true]
      exact Or.inl h

/-- After processing an entry that has a URL, the URL's hash is present. -/
theorem processEntry_puts (uh ex fa : String → String) (sid : Nat) (now : String)
    (st : IngestState) (e : Entry) (u : String) (he : entryUrl e = some u) :
    itemExists (processEntry uh ex fa sid now st e).store (uh u) = true := by
  unfold processEntry
  rw [he]
  by_cases hex : itemExists st.store (uh u) = true
  · simp only [hex, if_true]
  · rw [Bool.not_eq_true] at hex
    simp only [hex, Bool.false_eq_true, if_false]
    show itemExists (st.store ++ [_]) (uh u) = true
    simp [itemExists, List.any_append]

/-- The entry loop never removes items. -/
theorem foldl_itemExists_mono (uh ex fa : String → String) (sid : Nat) (now : String)
    (entries : List Entry) (st : IngestState) (h' : String)
    (h : itemExists st.store h' = true) :
    itemExists ((entries.foldl (processEntry uh ex fa sid now) st).store) h' = true := by
  induction entries generalizing st with
  | nil => exact h
  | cons e es ih => exact ih _ (itemExists_mono uh ex fa sid now st e h' h)

/-- After the entry loop, every processed entry's URL hash is present. -/
theorem foldl_all_present (uh ex fa : String → String) (sid : Nat) (now : String)
    (entries : List Entry) (st : IngestState) :
    ∀ e ∈ entries, ∀ u, entryUrl e = some u →
      itemExists ((entries.foldl (processEntry uh ex fa sid now) st).store) (uh u) = true := by
  induction entries generalizing st with
  | nil => intro e he; exact absurd he (List.not_mem_nil e)
  | cons e0 es ih =>
    intro e he u hu
    rcases List.mem_cons.mp he with rfl | he'
    · exact foldl_itemExists_mono uh ex fa sid now es _ _
        (processEntry_puts uh ex fa sid now st e u hu)
    · exact ih _ e he' u hu

/-- When every entry's hash is already present, the entry loop is the
identity: each entry is skipped by the dedup check. -/
theorem foldl_fixed (uh ex fa : String → String) (sid : Nat) (now : String)
    (entries : List Entry) (st : IngestState)
    (h : ∀ e ∈ entries, ∀ u, entryUrl e = some u → itemExists st.store (uh u) = true) :
    entries.foldl (processEntry uh ex fa sid now) st = st := by
  induction entries with
  | nil => rfl
  | cons e es ih =>
    have hfix : processEntry uh ex fa sid now st e = st := by
      unfold processEntry
      cases he : entryUrl e with
      | none => rfl
      | some u => simp [h e (List.mem_cons_self e es) u he]
    rw [List.foldl_cons, hfix]
    exact ih (fun e' he' u hu => h e' (List.mem_cons_of_mem e he') u hu)

/-- C7: re-running ingestion against an unchanged feed (even under a
different source id and fetch timestamp) inserts zero new items and leaves
the store untouched: every entry's URL hash already exists, so each entry
is skipped by the dedup check and the loop reports a new-item count of 0. -/
theorem idempotent_rerun (uh ex fa : String → String) (sid1 sid2 : Nat)
    (now1 now2 : String) (store0 : List Item) (entries : List Entry) :
    ingestRun uh ex fa sid2 now2
        ((ingestRun uh ex fa sid1 now1 store0 entries).store) entries
      = ⟨(ingestRun uh ex fa sid1 now1 store0 entries).store, 0, []⟩ := by
  apply foldl_fixed
  intro e he u hu
  exact foldl_all_present uh ex fa sid1 now1 entries ⟨store0, 0, []⟩ e he u hu

/-- The article-page fallback condition of `fetch_feed`
(`not content or len(content.strip()) < 100`) holds exactly when the
stripped content is shorter than 100 characters. -/
theorem fellback_iff (c : String) :
    ((c == "") || decide ((pyStrip c).length < 100))
      = decide ((pyStrip c).length < 100) := by
  by_cases hc : c = ""
  · subst hc; decide
  · have hb : (c == "") = false := beq_eq_false_iff_ne.mpr hc
    rw [hb, Bool.false_or]

/-- C10 (implicit): for a non-duplicate entry with a URL, the article-page
fetch (`fetch_article_text`) is triggered exactly when the extracted entry
content is shorter than 100 characters after trimming — not only when it
is empty — and is skipped only when the trimmed content has at least 100
characters. -/
theorem article_fetch_threshold (uh ex fa : String → String) (sid : Nat)
    (now : String) (st : IngestState) (e : Entry) (u : String)
    (hu : entryUrl e = some u)
    (hnew : itemExists st.store (uh u) = false) :
    (processEntry uh ex fa sid now st e).articleFetches
      = st.articleFetches ++
        (if (pyStrip (get_entry_content ex e)).length < 100 then [u] else []) := by
  unfold processEntry
  rw [hu]
  simp only [hnew, Bool.false_eq_true, if_false, fellback_iff]
  by_cases h100 : (pyStrip (get_entry_content ex e)).length < 100
  · simp [h100]
  · simp [h100]

/-- Witness for C10: a 5-character entry content triggers the fallback. -/
theorem article_fetch_threshold_witness :
    (processEntry idFnW idFnW artW 1 "now" ⟨[], 0, []⟩ entryAW).articleFetches
      = ["http://a/1"] := by
  rw [article_fetch_threshold idFnW idFnW artW 1 "now" ⟨[], 0, []⟩ entryAW
    "http://a/1" (by decide) (by decide)]
  decide

/-- A truthy optional string is the underlying string. -/
theorem truthy_eq_some {o : Option String} {u : String} (h : truthy o = some u) :
    o = some u := by
  cases o with
  | none => exact absurd h (by simp [truthy])
  | some s =>
    by_cases hs : s = ""
    · simp [truthy, hs] at h
    · simp only [truthy, if_neg hs] at h
      exact h

/-- C8: feed discovery is first-match-wins.  An explicit (truthy) feed URL
is returned verbatim with no network call, even when an HTML fallback is
also configured; with no explicit feed URL but a declared HTML fallback,
discovery returns none without probing; and any network request at all
implies neither was configured (kind patterns and probing are reached only
then). -/
theorem discover_priority (probe : String → Option String × Nat)
    (mediumFeed : String → Option String) (src : SourceCfg) :
    (∀ u, truthy src.feed_url = some u →
        discover_feed_url probe mediumFeed src = (some u, 0))
    ∧ (truthy src.feed_url = none → (truthy src.html_fallback_url).isSome →
        discover_feed_url probe mediumFeed src = (none, 0))
    ∧ ((discover_feed_url probe mediumFeed src).2 ≠ 0 →
        truthy src.feed_url = none ∧ truthy src.html_fallback_url = none) := by
  refine ⟨?_, ?_, ?_⟩
  · intro u hu
    have hfu : src.feed_url = some u := truthy_eq_some hu
    have hsome : (truthy src.feed_url).isSome = true := by rw [hu]; rfl
    simp only [discover_feed_url]
    rw [if_pos hsome, hfu]
  · intro h1 h2
    simp [discover_feed_url, h1, h2]
  · intro hn
    by_cases h1 : (truthy src.feed_url).isSome = true
    · exact absurd (by simp [discover_feed_url, h1]) hn
    · by_cases h2 : (truthy src.html_fallback_url).isSome = true
      · exact absurd (by simp [discover_feed_url, h1, h2]) hn
      · exact ⟨Option.not_isSome_iff_eq_none.mp h1,
          Option.not_isSome_iff_eq_none.mp h2⟩

/-- Witness for C8: a source with both feed URL and HTML fallback returns
the feed URL with zero requests; one with only the fallback returns none
with zero requests. -/
theorem discover_priority_witness :
    discover_feed_url probeW medW srcAW = (some "https://a.example/rss", 0)
    ∧ discover_feed_url probeW medW srcBW = (none, 0) :=
  ⟨(discover_priority probeW medW srcAW).1 "https://a.example/rss" (by decide),
   (discover_priority probeW medW srcBW).2.1 (by decide) (by decide)⟩

/-- `_try_parse` only accepts dicts containing all six required fields. -/
theorem _try_parse_valid (loads : String → Option Json) (text : String) (d : Json)
    (h : _try_parse loads text = some d) :
    (d.isDict && requiredSubset d) = true := by
  unfold _try_parse at h
  cases hl : loads text with
  | none => simp [hl] at h
  | some data =>
    simp only [hl] at h
    split_ifs at h with h1 h2
    simp at h1 h2
    injection h with h'
    subst h'
    rw [h1, h2]
    rfl

/-- The repair loop only accepts payloads `_try_parse` accepts. -/
theorem repairLoop_valid (loads : String → Option Json) (t : String)
    (sfxs : List String) (d : Json) (h : repairLoop loads t sfxs = some d) :
    (d.isDict && requiredSubset d) = true := by
  induction sfxs with
  | nil => exact absurd h (by simp [repairLoop])
  | cons s rest ih =>
    unfold repairLoop at h
    cases hp : _try_parse loads (t ++ s) with
    | some d' =>
      simp only [hp] at h
      injection h with h'
      subst h'
      exact _try_parse_valid loads (t ++ s) _ hp
    | none =>
      simp only [hp] at h
      exact ih h

/-- Everything `parse_summary_json` returns is a dict with the six
required fields — with or without fence stripping and repair. -/
theorem parse_summary_json_valid (loads : String → Option Json) (text : String)
    (d : Json) (h : parse_summary_json loads text = some d) :
    (d.isDict && requiredSubset d) = true := by
  unfold parse_summary_json at h
  cases hp : _try_parse loads (strip_fences text) with
  | some d' =>
    simp only [hp] at h
    injection h with h'
    subst h'
    exact _try_parse_valid loads (strip_fences text) _ hp
  | none =>
    simp only [hp] at h
    exact repairLoop_valid loads (strip_fences text) REPAIR_SUFFIXES d h

/-- A successful `summarize_item` result passed validation. -/
theorem summarize_item_valid (loads : String → Option Json)
    (world : Nat → Option String) (idx : Nat) (model title content : String)
    (s : Json) (m : String)
    (h : (summarize_item loads world idx model title content).result = some (s, m)) :
    (s.isDict && requiredSubset s) = true := by
  unfold summarize_item at h
  cases h1 : world idx with
  | none => simp [h1] at h
  | some r =>
    simp only [h1] at h
    cases h2 : parse_summary_json loads r with
    | some sum =>
      simp only [h2] at h
      injection h with h'
      have hs : sum = s := congrArg Prod.fst h'
      subst hs
      exact parse_summary_json_valid loads r _ h2
    | none =>
      simp only [h2] at h
      cases h3 : world (idx + 1) with
      | none => simp [h3] at h
      | some fixed =>
        simp only [h3] at h
        cases h4 : parse_summary_json loads fixed with
        | none => simp [h4] at h
        | some sum =>
          simp only [h4] at h
          injection h with h'
          have hs : sum = s := congrArg Prod.fst h'
          subst hs
          exact parse_summary_json_valid loads fixed _ h4

/-- Setting an item to `skipped` preserves the six-field invariant. -/
theorem updateItem_inv_skip (store : List Item) (iid : Nat) (h : SummaryInv store) :
    SummaryInv (updateItem store iid (fun it => { it with status := .skipped })) := by
  intro it hmem hsum
  unfold updateItem at hmem
  rcases List.mem_map.mp hmem with ⟨x, hx, rfl⟩
  by_cases hid : x.id = iid
  · rw [if_pos hid] at hsum
    simp at hsum
  · rw [if_neg hid] at hsum ⊢
    exact h x hx hsum

/-- Writing a validated payload with status `summarized` preserves the
six-field invariant. -/
theorem updateItem_inv_set (store : List Item) (iid : Nat) (s : Json) (mu : String)
    (h : SummaryInv store) (hv : (s.isDict && requiredSubset s) = true) :
    SummaryInv (updateItem store iid (fun it =>
      { it with summaryJson := some s, modelUsed := some mu,
                status := .summarized })) := by
  intro it hmem hsum
  unfold updateItem at hmem
  rcases List.mem_map.mp hmem with ⟨x, hx, rfl⟩
  by_cases hid : x.id = iid
  · rw [if_pos hid]
    exact hv
  · rw [if_neg hid] at hsum ⊢
    exact h x hx hsum

/-- One iteration of the item loop preserves the six-field invariant: the
only write that sets `summarized` stores a payload that passed
validation. -/
theorem processRow_inv (loads : String → Option Json) (world : Nat → Option String)
    (model : String) (rs : RunState) (row : Item) (h : SummaryInv rs.store) :
    SummaryInv (processRow loads world model rs row).store := by
  simp only [processRow]
  by_cases hc : pyStrip (row.contentText.getD "") = ""
  · rw [if_pos hc]
    exact updateItem_inv_skip rs.store row.id h
  · rw [if_neg hc]
    cases hres : (summarize_item loads world rs.calls.length model row.title
        (row.contentText.getD "")).result with
    | none => exact h
    | some p =>
      obtain ⟨s, mu⟩ := p
      exact updateItem_inv_set rs.store row.id s mu h
        (summarize_item_valid loads world rs.calls.length model row.title
          (row.contentText.getD "") s mu hres)

/-- The migration sweep preserves the six-field invariant. -/
theorem markOldSkipped_inv (store : List Item) (h : SummaryInv store) :
    SummaryInv (markOldSkipped store) := by
  intro it hmem hsum
  unfold markOldSkipped at hmem
  rcases List.mem_map.mp hmem with ⟨x, hx, rfl⟩
  by_cases hold : (x.status == Status.new && isOld x) = true
  · rw [if_pos hold] at hsum
    simp at hsum
  · rw [if_neg hold] at hsum ⊢
    exact h x hx hsum

/-- The whole item loop preserves the six-field invariant. -/
theorem foldl_processRow_inv (loads : String → Option Json)
    (world : Nat → Option String) (model : String) (rows : List Item)
    (rs : RunState) (h : SummaryInv rs.store) :
    SummaryInv ((rows.foldl (processRow loads world model) rs).store) := by
  induction rows generalizing rs with
  | nil => exact h
  | cons r rest ih => exact ih _ (processRow_inv loads world model rs r h)

/-- C2: assuming the six-field schema invariant going in, it still holds
after a full summarizer run — every `summarized` item's `summary_json`
holds a payload (the `json.dumps` serialization of a `Json` dict) that
contains all six required fields, because the only write that sets
`summarized` stores a value that passed `parse_summary_json`, whose
`_try_parse` accepts only dicts with all six fields. -/
theorem summarized_payload_valid (loads : String → Option Json)
    (world : Nat → Option String) (cap : Nat) (model : String)
    (store : List Item) (h : SummaryInv store) :
    SummaryInv (summarizerRun loads world cap model store).store := by
  unfold summarizerRun
  exact foldl_processRow_inv loads world model _ _ (markOldSkipped_inv store h)

/-- Witness for C2: a run over a fresh item with a well-formed LLM
response. -/
theorem summarized_payload_valid_witness :
    SummaryInv (summarizerRun loadsGoodW worldGoodW 25 "m" [itemNewW]).store :=
  summarized_payload_valid loadsGoodW worldGoodW 25 "m" [itemNewW]
    (by unfold SummaryInv; decide)

/-- C4: when the first LLM response fails validation (even after the
repair suffixes), `summarize_item` issues exactly one corrective call
whose user prompt is `FIX_JSON_PROMPT` applied to the raw invalid text;
and if the corrected response is still invalid (or the corrective call
itself fails), the item's processing ends in a counted failure with no
store write — its status stays whatever it was (i.e. `new`). -/
theorem corrective_reprompt (loads : String → Option Json)
    (world : Nat → Option String) (model : String) (rs : RunState) (row : Item)
    (r1 : String)
    (hc : pyStrip (row.contentText.getD "") ≠ "")
    (h1 : world rs.calls.length = some r1)
    (hbad : parse_summary_json loads r1 = none) :
    FIX_JSON_PROMPT r1 = FIX_JSON_INSTR ++ r1
    ∧ (summarize_item loads world rs.calls.length model row.title
        (row.contentText.getD "")).calls
      = [(SUMMARY_SYSTEM_PROMPT, userPromptOf row.title (row.contentText.getD "")),
         ("Fix this JSON.", FIX_JSON_PROMPT r1)]
    ∧ ((∀ r2, world (rs.calls.length + 1) = some r2 →
          parse_summary_json loads r2 = none) →
        processRow loads world model rs row =
          { rs with
            errors := rs.errors + 1,
            calls := rs.calls ++
              [(SUMMARY_SYSTEM_PROMPT, userPromptOf row.title (row.contentText.getD "")),
               ("Fix this JSON.", FIX_JSON_PROMPT r1)] }) := by
  have hcalls : (summarize_item loads world rs.calls.length model row.title
      (row.contentText.getD "")).calls
      = [(SUMMARY_SYSTEM_PROMPT, userPromptOf row.title (row.contentText.getD "")),
         ("Fix this JSON.", FIX_JSON_PROMPT r1)] := by
    unfold summarize_item
    simp only [h1, hbad]
    cases h3 : world (rs.calls.length + 1) with
    | none => rfl
    | some fixed =>
      cases h4 : parse_summary_json loads fixed <;> simp only [h4]
  refine ⟨rfl, hcalls, fun hall => ?_⟩
  have hres : (summarize_item loads world rs.calls.length model row.title
      (row.contentText.getD "")).result = none := by
    unfold summarize_item
    simp only [h1, hbad]
    cases h3 : world (rs.calls.length + 1) with
    | none => rfl
    | some fixed =>
      simp only [hall fixed h3]
  simp only [processRow]
  rw [if_neg hc, hres, hcalls]

/-- Witness for C4: the model answers unparseable text twice. -/
theorem corrective_reprompt_witness :
    processRow loadsNoneW worldOopsW "m" rsW itemNewW =
      { rsW with
        errors := rsW.errors + 1,
        calls := rsW.calls ++
          [(SUMMARY_SYSTEM_PROMPT, userPromptOf itemNewW.title (itemNewW.contentText.getD "")),
           ("Fix this JSON.", FIX_JSON_PROMPT "oops")] } :=
  (corrective_reprompt loadsNoneW worldOopsW "m" rsW itemNewW "oops"
    (by decide) rfl rfl).2.2
    (fun r2 h => (Option.some.inj h) ▸ (rfl : parse_summary_json loadsNoneW "oops" = none))

/-- C5: a selected row whose stored content is empty or whitespace-only
after stripping is transitioned directly to `skipped` — with no LLM call
(the call log, counters and all other items are untouched) — and such a
step can only leave `summarized` items that were already in the store, so
items reach `summarized` only with non-empty trimmed content. -/
theorem empty_content_skipped (loads : String → Option Json)
    (world : Nat → Option String) (model : String) (rs : RunState) (row : Item)
    (h : pyStrip (row.contentText.getD "") = "") :
    processRow loads world model rs row =
      { rs with
        store := updateItem rs.store row.id (fun it => { it with status := Status.skipped }) }
    ∧ ∀ it ∈ (processRow loads world model rs row).store,
        it.status = Status.summarized → it ∈ rs.store := by
  have heq : processRow loads world model rs row =
      { rs with
        store := updateItem rs.store row.id (fun it => { it with status := Status.skipped }) } := by
    simp only [processRow]
    rw [if_pos h]
  refine ⟨heq, ?_⟩
  rw [heq]
  intro it hmem hsum
  unfold updateItem at hmem
  rcases List.mem_map.mp hmem with ⟨x, hx, rfl⟩
  by_cases hid : x.id = row.id
  · rw [if_pos hid] at hsum
    simp at hsum
  · rw [if_neg hid]
    exact hx

/-- Witness for C5: a whitespace-only item is skipped directly. -/
theorem empty_content_skipped_witness :
    pyStrip (itemWsW.contentText.getD "") = ""
    ∧ processRow loadsNoneW worldOopsW "m" rsW itemWsW =
        { rsW with
          store := updateItem rsW.store itemWsW.id (fun it => { it with status := Status.skipped }) }
    ∧ ∀ it ∈ (processRow loadsNoneW worldOopsW "m" rsW itemWsW).store,
        it.status = Status.summarized → it ∈ rsW.store :=
  ⟨by decide,
   (empty_content_skipped loadsNoneW worldOopsW "m" rsW itemWsW (by decide)).1,
   (empty_content_skipped loadsNoneW worldOopsW "m" rsW itemWsW (by decide)).2⟩

end KeepUp
